import Mathlib

set_option maxHeartbeats 1000000

/-- Result codes of the `SettingsFile` interface, embedding the C++ enum
`SettingsFileResult = enum \x7b EndOfFile = -1, Success = 0, InvalidState, IOError \x7d`
from src/include/SettingsFile.h. -/
inductive SettingsFileResult
  | EndOfFile
  | Success
  | InvalidState
  | IOError
deriving DecidableEq, Repr

/-- The integer value the C++ enum assigns to each result enumerator. -/
def SettingsFileResult.toInt : SettingsFileResult → Int
  | .EndOfFile => -1
  | .Success => 0
  | .InvalidState => 1
  | .IOError => 2

/-- Modelled from the spec: section 4.4 classifies `InvalidState` and `IOError`
as failures, while `EndOfFile` is "not a failure" (a normal boundary) and
`Success` is success. -/
def SettingsFileResult.isFailure : SettingsFileResult → Bool
  | .InvalidState => true
  | .IOError => true
  | _ => false

/-- Open-state codes, embedding the C++ enum
`FileStatus = enum \x7b FileClosed = 0, FileOpenedForRead, FileOpenedForWrite \x7d`
from src/include/SettingsFile.h. -/
inductive FileStatus
  | FileClosed
  | FileOpenedForRead
  | FileOpenedForWrite
deriving DecidableEq, Repr

/-- The integer value the C++ enum assigns to each status enumerator. -/
def FileStatus.toInt : FileStatus → Int
  | .FileClosed => 0
  | .FileOpenedForRead => 1
  | .FileOpenedForWrite => 2

/-- Modelled from the spec: the repository ships only the pure-virtual
`SettingsFile` interface, so the accessor state is taken from spec section 3:
`mode` (current access state), `medium` (the durable bytes on the underlying
storage medium), `pendingWrites` (bytes written but not yet durable) and
`cursor` (logical read position). -/
structure SettingsAccessor where
  mode : FileStatus
  medium : List Char
  pendingWrites : List Char
  cursor : Nat
deriving DecidableEq, Repr

namespace SettingsAccessor

/-- Modelled from the spec: an accessor is created in mode Closed, addressing a
medium whose durable contents are `m`; a fresh accessor over an empty file is
`init []`. -/
def init (m : List Char) : SettingsAccessor :=
  ⟨FileStatus.FileClosed, m, [], 0⟩

/-- Embeds `getOpenState` of src/include/SettingsFile.h: a pure query of the mode. -/
def getOpenState (s : SettingsAccessor) : FileStatus := s.mode

/-- Modelled from the spec: `openForRead` succeeds only from Closed, entering
OpenForRead with the cursor at the start; on an already-open accessor it
returns InvalidState and changes nothing. -/
def openForRead (s : SettingsAccessor) : SettingsFileResult × SettingsAccessor :=
  match s.mode with
  | FileStatus.FileClosed =>
      (SettingsFileResult.Success,
        { s with mode := FileStatus.FileOpenedForRead, cursor := 0 })
  | _ => (SettingsFileResult.InvalidState, s)

/-- Modelled from the spec: `openForWrite` succeeds only from Closed, entering
OpenForWrite with an empty pendingWrites buffer; otherwise InvalidState with no
observable change. -/
def openForWrite (s : SettingsAccessor) : SettingsFileResult × SettingsAccessor :=
  match s.mode with
  | FileStatus.FileClosed =>
      (SettingsFileResult.Success,
        { s with mode := FileStatus.FileOpenedForWrite, pendingWrites := [] })
  | _ => (SettingsFileResult.InvalidState, s)

/-- Modelled from the spec: `read` returns exactly the byte at the cursor and
advances the cursor by one; when no bytes remain it returns EndOfFile with no
byte produced and the cursor unchanged; outside OpenForRead it returns
InvalidState and changes nothing. -/
def read (s : SettingsAccessor) : SettingsFileResult × Option Char × SettingsAccessor :=
  match s.mode with
  | FileStatus.FileOpenedForRead =>
      match s.medium.get? s.cursor with
      | some b => (SettingsFileResult.Success, some b, { s with cursor := s.cursor + 1 })
      | none => (SettingsFileResult.EndOfFile, none, s)
  | _ => (SettingsFileResult.InvalidState, none, s)

/-- Modelled from the spec: collect bytes up to and including the next newline;
the Bool reports whether a newline was found before the data ran out. -/
def readLineFrom : List Char → List Char × Bool
  | [] => ([], false)
  | c :: rest =>
      if c = '\n' then ([c], true)
      else
        let p := readLineFrom rest
        (c :: p.1, p.2)

/-- Modelled from the spec: `readLine` accumulates bytes up to and including the
next newline into the buffer, advancing the cursor past it (Success); on
end-of-file mid-line it delivers the remaining bytes and returns EndOfFile;
outside OpenForRead it returns InvalidState with an untouched state. -/
def readLine (s : SettingsAccessor) : SettingsFileResult × List Char × SettingsAccessor :=
  match s.mode with
  | FileStatus.FileOpenedForRead =>
      let p := readLineFrom (s.medium.drop s.cursor)
      ((if p.2 then SettingsFileResult.Success else SettingsFileResult.EndOfFile),
        p.1, { s with cursor := s.cursor + p.1.length })
  | _ => (SettingsFileResult.InvalidState, [], s)

/-- Modelled from the spec: `write` appends the byte to pendingWrites and
returns Success once accepted (durability not implied); `fault` models the
medium rejecting the append, which yields IOError and leaves previously
accepted pendingWrites intact; outside OpenForWrite it returns InvalidState
and changes nothing. -/
def write (fault : Bool) (b : Char) (s : SettingsAccessor) :
    SettingsFileResult × SettingsAccessor :=
  match s.mode with
  | FileStatus.FileOpenedForWrite =>
      if fault then (SettingsFileResult.IOError, s)
      else (SettingsFileResult.Success, { s with pendingWrites := s.pendingWrites ++ [b] })
  | _ => (SettingsFileResult.InvalidState, s)

/-- Fault-free sequence of single-byte writes, stopping at the first
non-Success result. -/
def writeAll (l : List Char) (s : SettingsAccessor) : SettingsFileResult × SettingsAccessor :=
  match l with
  | [] => (SettingsFileResult.Success, s)
  | b :: rest =>
      match write false b s with
      | (SettingsFileResult.Success, s1) => writeAll rest s1
      | r => r

/-- Modelled from the spec: `close` fails with InvalidState when already Closed;
from OpenForRead it closes; from OpenForWrite it flushes pendingWrites durably
onto the medium before the transition completes, and a medium fault during this
flush surfaces IOError while preserving write mode and the buffer so the caller
can retry. -/
def close (fault : Bool) (s : SettingsAccessor) : SettingsFileResult × SettingsAccessor :=
  match s.mode with
  | FileStatus.FileClosed => (SettingsFileResult.InvalidState, s)
  | FileStatus.FileOpenedForRead =>
      (SettingsFileResult.Success, { s with mode := FileStatus.FileClosed })
  | FileStatus.FileOpenedForWrite =>
      if fault then (SettingsFileResult.IOError, s)
      else
        (SettingsFileResult.Success,
          { s with mode := FileStatus.FileClosed,
                   medium := s.medium ++ s.pendingWrites,
                   pendingWrites := [] })

/-- Modelled from the spec: `forceClose` always succeeds, flushes pendingWrites
durably when in OpenForWrite, closes from any open mode, and is a no-op when
already Closed. -/
def forceClose (s : SettingsAccessor) : SettingsAccessor :=
  match s.mode with
  | FileStatus.FileClosed => s
  | FileStatus.FileOpenedForRead => { s with mode := FileStatus.FileClosed }
  | FileStatus.FileOpenedForWrite =>
      { s with mode := FileStatus.FileClosed,
               medium := s.medium ++ s.pendingWrites,
               pendingWrites := [] }

/-- Modelled from the spec: destruction of an accessor behaves as if forceClose
were invoked first; the value is the durable medium contents afterwards. -/
def destroy (s : SettingsAccessor) : List Char :=
  (forceClose s).medium

/-- Read `n` bytes with successive `read` calls, collecting the produced bytes;
stops early at EndOfFile. -/
def readN : Nat → SettingsAccessor → List Char × SettingsAccessor
  | 0, s => ([], s)
  | n + 1, s =>
      match read s with
      | (SettingsFileResult.Success, some b, s1) =>
          let p := readN n s1
          (b :: p.1, p.2)
      | _ => ([], s)

end SettingsAccessor

/-- Operations on an accessor, for reasoning about arbitrary call sequences;
`fault` flags model a medium fault at that call. -/
inductive Op
  | opR
  | opW
  | rd
  | rdLine
  | wr (fault : Bool) (b : Char)
  | cl (fault : Bool)
  | fcl
deriving DecidableEq, Repr

namespace SettingsAccessor

/-- The state after one operation (ignoring the returned result code). -/
def step (op : Op) (s : SettingsAccessor) : SettingsAccessor :=
  match op with
  | Op.opR => (openForRead s).2
  | Op.opW => (openForWrite s).2
  | Op.rd => (read s).2.2
  | Op.rdLine => (readLine s).2.2
  | Op.wr f b => (write f b s).2
  | Op.cl f => (close f s).2
  | Op.fcl => forceClose s

/-- The state after a sequence of operations. -/
def run (ops : List Op) (s : SettingsAccessor) : SettingsAccessor :=
  ops.foldl (fun t op => step op t) s

/-- The mode-only state machine of spec section 4.1: the mode established by
the last successful open/close/forceClose transition (a close whose flush
faults in write mode is not a successful transition and leaves the mode). -/
def specTransition (op : Op) (m : FileStatus) : FileStatus :=
  match op with
  | Op.opR => if m = FileStatus.FileClosed then FileStatus.FileOpenedForRead else m
  | Op.opW => if m = FileStatus.FileClosed then FileStatus.FileOpenedForWrite else m
  | Op.cl f =>
      match m with
      | FileStatus.FileClosed => m
      | FileStatus.FileOpenedForRead => FileStatus.FileClosed
      | FileStatus.FileOpenedForWrite => if f then m else FileStatus.FileClosed
  | Op.fcl => FileStatus.FileClosed
  | _ => m

end SettingsAccessor

namespace SettingsAccessor

lemma step_mode (op : Op) (s : SettingsAccessor) :
    (step op s).mode = specTransition op s.mode := by
  obtain ⟨mo, me, p, c⟩ := s
  cases op <;> cases mo <;>
    simp only [step, specTransition, openForRead, openForWrite, read, readLine, write,
      close, forceClose] <;>
    first
      | rfl
      | (split <;> rfl)

lemma run_mode (ops : List Op) (s : SettingsAccessor) :
    (run ops s).mode = List.foldl (fun m op => specTransition op m) s.mode ops := by
  induction ops generalizing s with
  | nil => rfl
  | cons op rest ih =>
      show (run rest (step op s)).mode = _
      rw [ih (step op s), step_mode]
      rfl

end SettingsAccessor

/-- C2: from the initial Closed state, after any sequence of operations the
accessor's mode is exactly one of Closed, OpenForRead, OpenForWrite, and
`getOpenState` returns the mode established by the last successful
open/close/forceClose transition, i.e. the fold of the spec's mode-only
state machine over the sequence. -/
theorem C2_mode_matches_transitions (ops : List Op) (m : List Char) :
    SettingsAccessor.getOpenState (SettingsAccessor.run ops (SettingsAccessor.init m))
      = List.foldl (fun st op => SettingsAccessor.specTransition op st)
          FileStatus.FileClosed ops ∧
    (SettingsAccessor.getOpenState (SettingsAccessor.run ops (SettingsAccessor.init m))
        = FileStatus.FileClosed ∨
     SettingsAccessor.getOpenState (SettingsAccessor.run ops (SettingsAccessor.init m))
        = FileStatus.FileOpenedForRead ∨
     SettingsAccessor.getOpenState (SettingsAccessor.run ops (SettingsAccessor.init m))
        = FileStatus.FileOpenedForWrite) := by
  refine ⟨SettingsAccessor.run_mode ops (SettingsAccessor.init m), ?_⟩
  cases h : (SettingsAccessor.run ops (SettingsAccessor.init m)).mode with
  | FileClosed => exact Or.inl h
  | FileOpenedForRead => exact Or.inr (Or.inl h)
  | FileOpenedForWrite => exact Or.inr (Or.inr h)

/-- C3: when `close` is called in OpenForWrite mode and the flush faults at the
medium, it returns IOError, the accessor stays in write mode with pendingWrites
intact, and a subsequent fault-free `close` still flushes every buffered byte
durably. -/
theorem C3_close_flush_fault (s : SettingsAccessor)
    (h : s.mode = FileStatus.FileOpenedForWrite) :
    (SettingsAccessor.close true s).1 = SettingsFileResult.IOError ∧
    (SettingsAccessor.close true s).2 = s ∧
    (SettingsAccessor.close false (SettingsAccessor.close true s).2).1
        = SettingsFileResult.Success ∧
    (SettingsAccessor.close false (SettingsAccessor.close true s).2).2.medium
        = s.medium ++ s.pendingWrites := by
  obtain ⟨mo, me, p, c⟩ := s
  subst h
  exact ⟨rfl, rfl, rfl, rfl⟩

theorem C3_close_flush_fault_witness :
    (SettingsAccessor.close true
        ((SettingsAccessor.openForWrite (SettingsAccessor.init [])).2)).1
      = SettingsFileResult.IOError ∧
    (SettingsAccessor.close true
        ((SettingsAccessor.openForWrite (SettingsAccessor.init [])).2)).2
      = (SettingsAccessor.openForWrite (SettingsAccessor.init [])).2 :=
  ⟨(C3_close_flush_fault _ (by decide)).1, (C3_close_flush_fault _ (by decide)).2.1⟩

/-- C4: whenever `write` returns IOError the accessor state — in particular
every previously accepted byte in pendingWrites — is unchanged, and a
subsequent fault-free `close` or a `forceClose` still persists all of them
onto the medium. -/
theorem C4_write_ioerror_retains (s : SettingsAccessor) (f : Bool) (b : Char)
    (h : (SettingsAccessor.write f b s).1 = SettingsFileResult.IOError) :
    (SettingsAccessor.write f b s).2 = s ∧
    (SettingsAccessor.close false (SettingsAccessor.write f b s).2).2.medium
        = s.medium ++ s.pendingWrites ∧
    (SettingsAccessor.forceClose (SettingsAccessor.write f b s).2).medium
        = s.medium ++ s.pendingWrites := by
  obtain ⟨mo, me, p, c⟩ := s
  cases mo <;> cases f <;>
    simp_all [SettingsAccessor.write, SettingsAccessor.close, SettingsAccessor.forceClose]

theorem C4_write_ioerror_retains_witness :
    (SettingsAccessor.write true 'a'
        ((SettingsAccessor.openForWrite (SettingsAccessor.init [])).2)).2
      = (SettingsAccessor.openForWrite (SettingsAccessor.init [])).2 :=
  (C4_write_ioerror_retains _ true 'a' (by decide)).1

/-- C5: every operation invoked in a mode where it is not legal — opening while
already open, read/readLine outside OpenForRead, write outside OpenForWrite,
close while Closed — returns InvalidState and leaves the whole observable state
(mode, cursor, pendingWrites and medium) exactly as before the call. -/
theorem C5_invalid_state_no_effect (s : SettingsAccessor) (f : Bool) (b : Char) :
    (s.mode ≠ FileStatus.FileClosed →
        SettingsAccessor.openForRead s = (SettingsFileResult.InvalidState, s) ∧
        SettingsAccessor.openForWrite s = (SettingsFileResult.InvalidState, s)) ∧
    (s.mode ≠ FileStatus.FileOpenedForRead →
        SettingsAccessor.read s = (SettingsFileResult.InvalidState, none, s) ∧
        SettingsAccessor.readLine s = (SettingsFileResult.InvalidState, [], s)) ∧
    (s.mode ≠ FileStatus.FileOpenedForWrite →
        SettingsAccessor.write f b s = (SettingsFileResult.InvalidState, s)) ∧
    (s.mode = FileStatus.FileClosed →
        SettingsAccessor.close f s = (SettingsFileResult.InvalidState, s)) := by
  obtain ⟨mo, me, p, c⟩ := s
  cases mo <;>
    refine ⟨fun h => ?_, fun h => ?_, fun h => ?_, fun h => ?_⟩ <;>
    first
      | exact absurd rfl h
      | exact ⟨rfl, rfl⟩
      | rfl
      | cases h

theorem C5_invalid_state_no_effect_witness :
    SettingsAccessor.openForRead
        ((SettingsAccessor.openForRead (SettingsAccessor.init [])).2)
      = (SettingsFileResult.InvalidState,
         (SettingsAccessor.openForRead (SettingsAccessor.init [])).2) ∧
    SettingsAccessor.read
        ((SettingsAccessor.openForWrite (SettingsAccessor.init [])).2)
      = (SettingsFileResult.InvalidState, none,
         (SettingsAccessor.openForWrite (SettingsAccessor.init [])).2) ∧
    SettingsAccessor.write false 'a'
        ((SettingsAccessor.openForRead (SettingsAccessor.init [])).2)
      = (SettingsFileResult.InvalidState,
         (SettingsAccessor.openForRead (SettingsAccessor.init [])).2) ∧
    SettingsAccessor.close false (SettingsAccessor.init [])
      = (SettingsFileResult.InvalidState, SettingsAccessor.init []) :=
  ⟨((C5_invalid_state_no_effect _ false 'a').1 (by decide)).1,
   ((C5_invalid_state_no_effect _ false 'a').2.1 (by decide)).1,
   (C5_invalid_state_no_effect _ false 'a').2.2.1 (by decide),
   (C5_invalid_state_no_effect _ false 'a').2.2.2 (by decide)⟩

/-- C9: `forceClose` is total and idempotent: from any state it leaves the
accessor Closed, it is a no-op when the accessor is already Closed, and calling
it twice produces exactly the state of calling it once. -/
theorem C9_forceClose_idempotent (s : SettingsAccessor) :
    (SettingsAccessor.forceClose s).mode = FileStatus.FileClosed ∧
    SettingsAccessor.forceClose (SettingsAccessor.forceClose s)
      = SettingsAccessor.forceClose s ∧
    (s.mode = FileStatus.FileClosed → SettingsAccessor.forceClose s = s) := by
  obtain ⟨mo, me, p, c⟩ := s
  cases mo <;> exact ⟨rfl, rfl, fun h => by first | rfl | cases h⟩

theorem C9_forceClose_idempotent_witness :
    (SettingsAccessor.forceClose (SettingsAccessor.init [])).mode
      = FileStatus.FileClosed ∧
    SettingsAccessor.forceClose (SettingsAccessor.init []) = SettingsAccessor.init [] :=
  ⟨(C9_forceClose_idempotent (SettingsAccessor.init [])).1,
   (C9_forceClose_idempotent (SettingsAccessor.init [])).2.2 (by decide)⟩

/-- C10: the result enumerators carry the integer values Success = 0,
EndOfFile = -1, InvalidState = 1, IOError = 2, with EndOfFile the only negative
code, and FileClosed = 0; hence end-of-file is detected by a negative value and
a nonzero result is not always a failure. -/
theorem C10_enum_values :
    SettingsFileResult.Success.toInt = 0 ∧
    SettingsFileResult.EndOfFile.toInt = -1 ∧
    SettingsFileResult.InvalidState.toInt = 1 ∧
    SettingsFileResult.IOError.toInt = 2 ∧
    FileStatus.FileClosed.toInt = 0 ∧
    (∀ r : SettingsFileResult, r.toInt < 0 ↔ r = SettingsFileResult.EndOfFile) ∧
    (∃ r : SettingsFileResult,
        r.toInt ≠ 0 ∧ SettingsFileResult.isFailure r = false) := by
  refine ⟨rfl, rfl, rfl, rfl, rfl, fun r => ?_, ⟨SettingsFileResult.EndOfFile, by decide⟩⟩
  cases r <;> simp [SettingsFileResult.toInt]

namespace SettingsAccessor

lemma readLineFrom_decomp (l : List Char) :
    (readLineFrom l).1 ++ l.drop (readLineFrom l).1.length = l := by
  induction l with
  | nil => rfl
  | cons c rest ih =>
      by_cases hc : c = '\n'
      · simp [readLineFrom, hc]
      · simp only [readLineFrom, if_neg hc, List.length_cons, List.cons_append,
          List.drop_succ_cons]
        exact congrArg (c :: ·) ih

lemma readLineFrom_found (l : List Char) (h : (readLineFrom l).2 = true) :
    ∃ pre, (readLineFrom l).1 = pre ++ ['\n'] ∧ '\n' ∉ pre := by
  induction l with
  | nil => cases h
  | cons c rest ih =>
      by_cases hc : c = '\n'
      · subst hc
        exact ⟨[], by simp [readLineFrom], by simp⟩
      · simp only [readLineFrom, if_neg hc] at h ⊢
        obtain ⟨pre, hp, hn⟩ := ih h
        refine ⟨c :: pre, by simp [hp], ?_⟩
        intro hm
        rcases List.mem_cons.mp hm with h1 | h1
        · exact hc h1.symm
        · exact hn h1

lemma readLineFrom_not_found (l : List Char) (h : (readLineFrom l).2 = false) :
    (readLineFrom l).1 = l ∧ '\n' ∉ l := by
  induction l with
  | nil => exact ⟨rfl, by simp⟩
  | cons c rest ih =>
      by_cases hc : c = '\n'
      · simp [readLineFrom, hc] at h
      · simp only [readLineFrom, if_neg hc] at h ⊢
        obtain ⟨h1, h2⟩ := ih h
        refine ⟨by rw [h1], ?_⟩
        intro hm
        rcases List.mem_cons.mp hm with h1' | h1'
        · exact hc h1'.symm
        · exact h2 h1'

end SettingsAccessor

/-- C7: in OpenForRead mode, `readLine` advances the cursor by exactly the
length of the returned buffer, the buffer is exactly the first segment of the
bytes remaining at the cursor (no byte is lost), a Success buffer consists of
the bytes up to and including the first newline (no earlier newline), an
EndOfFile buffer delivers every remaining byte and contains no newline, and
the result is always Success or EndOfFile. -/
theorem C7_readLine_correct (s : SettingsAccessor)
    (h : s.mode = FileStatus.FileOpenedForRead) :
    (SettingsAccessor.readLine s).2.2.cursor
        = s.cursor + (SettingsAccessor.readLine s).2.1.length ∧
    (SettingsAccessor.readLine s).2.1
        ++ (s.medium.drop s.cursor).drop (SettingsAccessor.readLine s).2.1.length
        = s.medium.drop s.cursor ∧
    ((SettingsAccessor.readLine s).1 = SettingsFileResult.Success →
        ∃ pre, (SettingsAccessor.readLine s).2.1 = pre ++ ['\n'] ∧ '\n' ∉ pre) ∧
    ((SettingsAccessor.readLine s).1 = SettingsFileResult.EndOfFile →
        (SettingsAccessor.readLine s).2.1 = s.medium.drop s.cursor ∧
        '\n' ∉ (SettingsAccessor.readLine s).2.1) ∧
    ((SettingsAccessor.readLine s).1 = SettingsFileResult.Success ∨
     (SettingsAccessor.readLine s).1 = SettingsFileResult.EndOfFile) := by
  obtain ⟨mo, me, p, c⟩ := s
  subst h
  simp only [SettingsAccessor.readLine]
  cases hf : (SettingsAccessor.readLineFrom (me.drop c)).2 with
  | false =>
      obtain ⟨h1, h2⟩ := SettingsAccessor.readLineFrom_not_found _ hf
      refine ⟨trivial, SettingsAccessor.readLineFrom_decomp (me.drop c), ?_, ?_, ?_⟩
      · intro hs
        exact absurd hs (by decide)
      · intro _
        exact ⟨h1, by rw [h1]; exact h2⟩
      · exact Or.inr rfl
  | true =>
      obtain ⟨pre, hp, hn⟩ := SettingsAccessor.readLineFrom_found _ hf
      refine ⟨trivial, SettingsAccessor.readLineFrom_decomp (me.drop c), ?_, ?_, ?_⟩
      · intro _
        exact ⟨pre, hp, hn⟩
      · intro he
        exact absurd he (by decide)
      · exact Or.inl rfl

theorem C7_readLine_correct_witness :
    (SettingsAccessor.readLine
        ((SettingsAccessor.openForRead (SettingsAccessor.init ['x', '\n', 'y'])).2)).2.2.cursor
      = ((SettingsAccessor.openForRead (SettingsAccessor.init ['x', '\n', 'y'])).2).cursor
        + (SettingsAccessor.readLine
            ((SettingsAccessor.openForRead
              (SettingsAccessor.init ['x', '\n', 'y'])).2)).2.1.length ∧
    (∃ pre,
        (SettingsAccessor.readLine
            ((SettingsAccessor.openForRead
              (SettingsAccessor.init ['x', '\n', 'y'])).2)).2.1 = pre ++ ['\n'] ∧
        '\n' ∉ pre) :=
  ⟨(C7_readLine_correct _ (by decide)).1,
   (C7_readLine_correct _ (by decide)).2.2.1 (by decide)⟩

namespace SettingsAccessor

/-- A sequence of read-session calls: `true` is a readLine call, `false` a
read call. -/
def runReads (l : List Bool) (s : SettingsAccessor) : SettingsAccessor :=
  match l with
  | [] => s
  | true :: rest => runReads rest (readLine s).2.2
  | false :: rest => runReads rest (read s).2.2

lemma read_cursor_mono (s : SettingsAccessor) :
    s.cursor ≤ (read s).2.2.cursor := by
  obtain ⟨mo, me, p, c⟩ := s
  cases mo with
  | FileOpenedForRead =>
      cases hg : me.get? c with
      | some b =>
          show c ≤ ((read ⟨FileStatus.FileOpenedForRead, me, p, c⟩).2.2).cursor
          simp only [read, hg]
          exact Nat.le_succ c
      | none =>
          simp only [read, hg]
          exact Nat.le_refl c
  | FileClosed => exact Nat.le_refl c
  | FileOpenedForWrite => exact Nat.le_refl c

lemma readLine_cursor_mono (s : SettingsAccessor) :
    s.cursor ≤ (readLine s).2.2.cursor := by
  obtain ⟨mo, me, p, c⟩ := s
  cases mo with
  | FileOpenedForRead =>
      simp only [readLine]
      exact Nat.le_add_right c _
  | FileClosed => exact Nat.le_refl c
  | FileOpenedForWrite => exact Nat.le_refl c

lemma runReads_cursor_mono (l : List Bool) (s : SettingsAccessor) :
    s.cursor ≤ (runReads l s).cursor := by
  induction l generalizing s with
  | nil => exact Nat.le_refl _
  | cons b rest ih =>
      cases b with
      | true => exact Nat.le_trans (readLine_cursor_mono s) (ih _)
      | false => exact Nat.le_trans (read_cursor_mono s) (ih _)

end SettingsAccessor

/-- C8: in OpenForRead mode, when a byte remains at the cursor, `read` returns
Success with exactly that byte and the cursor advanced by one; when no bytes
remain it returns EndOfFile, produces no byte and leaves the state unchanged;
and across any sequence of read/readLine calls the cursor never decreases. -/
theorem C8_read_correct (s : SettingsAccessor) (l : List Bool)
    (h : s.mode = FileStatus.FileOpenedForRead) :
    (∀ hlt : s.cursor < s.medium.length,
        SettingsAccessor.read s
          = (SettingsFileResult.Success, some (s.medium.get ⟨s.cursor, hlt⟩),
             { s with cursor := s.cursor + 1 })) ∧
    (s.medium.length ≤ s.cursor →
        SettingsAccessor.read s = (SettingsFileResult.EndOfFile, none, s)) ∧
    s.cursor ≤ (SettingsAccessor.runReads l s).cursor := by
  refine ⟨fun hlt => ?_, fun hge => ?_, SettingsAccessor.runReads_cursor_mono l s⟩
  · obtain ⟨mo, me, p, c⟩ := s
    subst h
    simp only [SettingsAccessor.read, List.get?_eq_get hlt]
  · obtain ⟨mo, me, p, c⟩ := s
    subst h
    simp only [SettingsAccessor.read, List.get?_eq_none.mpr hge]

theorem C8_read_correct_witness :
    SettingsAccessor.read
        ((SettingsAccessor.openForRead (SettingsAccessor.init ['x'])).2)
      = (SettingsFileResult.Success, some 'x',
         { (SettingsAccessor.openForRead (SettingsAccessor.init ['x'])).2 with
             cursor := 1 }) ∧
    SettingsAccessor.read
        ((SettingsAccessor.runReads [false]
          ((SettingsAccessor.openForRead (SettingsAccessor.init ['x'])).2)))
      = (SettingsFileResult.EndOfFile, none,
         (SettingsAccessor.runReads [false]
          ((SettingsAccessor.openForRead (SettingsAccessor.init ['x'])).2))) :=
  ⟨(C8_read_correct _ [] (by decide)).1 (by decide),
   (C8_read_correct _ [] (by decide)).2.1 (by decide)⟩

namespace SettingsAccessor

lemma readN_reads (me p : List Char) (k n : Nat) (h : k + n ≤ me.length) :
    (readN n ⟨FileStatus.FileOpenedForRead, me, p, k⟩).1 = (me.drop k).take n := by
  induction n generalizing k with
  | zero => simp [readN]
  | succ n ih =>
      have hk : k < me.length := by omega
      have hg : me.get? k = some (me.get ⟨k, hk⟩) := List.get?_eq_get hk
      show (match read ⟨FileStatus.FileOpenedForRead, me, p, k⟩ with
        | (SettingsFileResult.Success, some b, s1) =>
            let q := readN n s1
            (b :: q.1, q.2)
        | _ => ([], ⟨FileStatus.FileOpenedForRead, me, p, k⟩)).1 = _
      simp only [read, hg]
      show (me.get ⟨k, hk⟩ :: (readN n ⟨FileStatus.FileOpenedForRead, me, p, k + 1⟩).1)
          = (me.drop k).take (n + 1)
      rw [ih (k + 1) (by omega)]
      conv_rhs => rw [List.drop_eq_getElem_cons hk, List.take_succ_cons]
      simp [List.get_eq_getElem]

lemma readN_full (m : List Char) :
    (readN m.length ((openForRead (init m)).2)).1 = m := by
  have h := readN_reads m [] 0 m.length (by omega)
  simpa using h

lemma writeAll_write_mode (l : List Char) (me p : List Char) (c : Nat) :
    writeAll l ⟨FileStatus.FileOpenedForWrite, me, p, c⟩
      = (SettingsFileResult.Success,
         ⟨FileStatus.FileOpenedForWrite, me, p ++ l, c⟩) := by
  induction l generalizing p with
  | nil => simp [writeAll]
  | cons b rest ih =>
      show writeAll rest ⟨FileStatus.FileOpenedForWrite, me, p ++ [b], c⟩ = _
      rw [ih (p ++ [b])]
      simp

end SettingsAccessor

/-- C1: every byte accepted by `write` (Success returned) enters pendingWrites
and is durable on the medium after a successful `close`, after `forceClose`,
and after destruction; each of these leaves pendingWrites empty, and the
flushed medium contents are recoverable in full by a fresh read session. -/
theorem C1_write_durability (s : SettingsAccessor) (f : Bool) (b : Char)
    (h : (SettingsAccessor.write f b s).1 = SettingsFileResult.Success) :
    b ∈ (SettingsAccessor.write f b s).2.pendingWrites ∧
    (SettingsAccessor.close false (SettingsAccessor.write f b s).2).2.pendingWrites
        = [] ∧
    b ∈ (SettingsAccessor.close false (SettingsAccessor.write f b s).2).2.medium ∧
    (SettingsAccessor.forceClose (SettingsAccessor.write f b s).2).pendingWrites
        = [] ∧
    b ∈ SettingsAccessor.destroy (SettingsAccessor.write f b s).2 ∧
    (SettingsAccessor.readN
        (SettingsAccessor.destroy (SettingsAccessor.write f b s).2).length
        ((SettingsAccessor.openForRead
            (SettingsAccessor.init
              (SettingsAccessor.destroy (SettingsAccessor.write f b s).2))).2)).1
      = SettingsAccessor.destroy (SettingsAccessor.write f b s).2 := by
  obtain ⟨mo, me, p, c⟩ := s
  cases mo with
  | FileOpenedForWrite =>
      cases f with
      | false =>
          refine ⟨?_, rfl, ?_, rfl, ?_, SettingsAccessor.readN_full _⟩
          · simp [SettingsAccessor.write]
          · simp [SettingsAccessor.write, SettingsAccessor.close]
          · simp [SettingsAccessor.write, SettingsAccessor.destroy,
              SettingsAccessor.forceClose]
      | true => exact absurd h (by simp [SettingsAccessor.write])
  | FileClosed => exact absurd h (by simp [SettingsAccessor.write])
  | FileOpenedForRead => exact absurd h (by simp [SettingsAccessor.write])

theorem C1_write_durability_witness :
    'a' ∈ (SettingsAccessor.write false 'a'
        ((SettingsAccessor.openForWrite (SettingsAccessor.init [])).2)).2.pendingWrites ∧
    'a' ∈ SettingsAccessor.destroy
        ((SettingsAccessor.write false 'a'
          ((SettingsAccessor.openForWrite (SettingsAccessor.init [])).2)).2) :=
  ⟨(C1_write_durability _ false 'a' (by decide)).1,
   (C1_write_durability _ false 'a' (by decide)).2.2.2.2.1⟩

/-- The accessor state after a fresh accessor writes "a\nb\n" in OpenForWrite. -/
def rtAfterWrite : SettingsFileResult × SettingsAccessor :=
  SettingsAccessor.writeAll ("a\nb\n".toList)
    ((SettingsAccessor.openForWrite (SettingsAccessor.init [])).2)

/-- The round-trip state after `close`. -/
def rtAfterClose : SettingsFileResult × SettingsAccessor :=
  SettingsAccessor.close false rtAfterWrite.2

/-- The round-trip state after reopening for read. -/
def rtReadState : SettingsAccessor :=
  (SettingsAccessor.openForRead rtAfterClose.2).2

/-- First readLine of the round-trip read session. -/
def rtLine1 : SettingsFileResult × List Char × SettingsAccessor :=
  SettingsAccessor.readLine rtReadState

/-- Second readLine of the round-trip read session. -/
def rtLine2 : SettingsFileResult × List Char × SettingsAccessor :=
  SettingsAccessor.readLine rtLine1.2.2

/-- C6: on a fresh accessor, writing "a\nb\n" in OpenForWrite, closing,
reopening for read, then two readLine calls yield "a\n" and "b\n" with
Success, and any further read in the session returns EndOfFile. -/
theorem C6_round_trip :
    rtAfterWrite.1 = SettingsFileResult.Success ∧
    rtAfterClose.1 = SettingsFileResult.Success ∧
    rtLine1.1 = SettingsFileResult.Success ∧ rtLine1.2.1 = "a\n".toList ∧
    rtLine2.1 = SettingsFileResult.Success ∧ rtLine2.2.1 = "b\n".toList ∧
    (SettingsAccessor.read rtLine2.2.2).1 = SettingsFileResult.EndOfFile ∧
    (SettingsAccessor.readLine rtLine2.2.2).1 = SettingsFileResult.EndOfFile := by
  decide
